import Mathlib

/-!
Verification of the request-validation pipeline and OpenAPI generation of
`typed-restana-app` (src/core/typed-app.ts and src/core/openapi.ts),
shallowly embedded in Lean 4.

JSON values are modelled by `Value`; Zod object schemas by `ZodObject`
(a list of declared field validators plus the capability flag that the
source probes with the expression `'strict' in schema`); the external
behaviour of Zod's `.strict()` / `.passthrough()` object parsing is
given by `zodParse`.  The adapter built by `createValidatedHandler` is
`handleRequest`; the response object carries `statusCode`, `headersSent`
and the list of performed `send` calls, and a business handler is
modelled by the effects it can have through the interface the adapter
hands it (`HandlerRun`).  Logging is a side effect with no observable
influence on responses and has no counterpart in the model; `res.send`
is modelled as total, so the fallback `res.end` path of the source is
unreachable here.
-/

/-! ## Definitions -/

/-- A JSON value: the data payloads flowing through validation. -/
inductive Value where
  | vnull : Value
  | vbool : Bool → Value
  | vnum : Int → Value
  | vstr : String → Value
  | vlist : List Value → Value
  | vobj : List (String × Value) → Value
deriving Repr

/-- One Zod issue: a path into the payload and a human-readable message. -/
structure Issue where
  path : List String
  message : String
deriving Repr

/-- Unknown-key policy of a Zod object schema: `.strict()` rejects
undeclared keys, `.passthrough()` retains them. -/
inductive UnknownKeys where
  | strict : UnknownKeys
  | passthrough : UnknownKeys
deriving Repr, DecidableEq

/-- A declared field of a Zod object schema.  `check` receives the value
found under `name` (or `none` when the key is absent) and yields the
parsed value (`.ok none` = key legitimately absent from the output) or a
message for the issue list. -/
structure FieldSchema where
  name : String
  check : Option Value → Except String (Option Value)

/-- A Zod object schema as used by `validateData`: its declared fields,
plus whether the object supports `.strict()` — the source probes this
with `'strict' in schema`. -/
structure ZodObject where
  fields : List FieldSchema
  hasStrict : Bool

/-- Keys of `data` not declared in the schema, in payload order. -/
def unknownFields (s : ZodObject) (data : List (String × Value)) :
    List (String × Value) :=
  data.filter (fun kv => s.fields.all (fun f => f.name ≠ kv.1))

/-- Issues produced by the declared fields, in declaration order. -/
def fieldIssues (s : ZodObject) (data : List (String × Value)) : List Issue :=
  s.fields.filterMap (fun f =>
    match f.check (data.lookup f.name) with
    | Except.error m => some ⟨[f.name], m⟩
    | Except.ok _ => none)

/-- Parsed declared fields, in declaration order. -/
def parsedFields (s : ZodObject) (data : List (String × Value)) :
    List (String × Value) :=
  s.fields.filterMap (fun f =>
    match f.check (data.lookup f.name) with
    | Except.error _ => none
    | Except.ok none => none
    | Except.ok (some v) => some (f.name, v))

/-- Zod's message for undeclared keys in strict mode. -/
def unrecognizedMessage (ks : List (String × Value)) : String :=
  "Unrecognized key(s) in object: " ++ String.intercalate ", " (ks.map (·.1))

/-- `schema.strict().safeParse` / `schema.passthrough().safeParse` on an
object schema: parse every declared field, then either reject or retain
the undeclared keys. -/
def zodParse (s : ZodObject) (mode : UnknownKeys) (data : Value) :
    Except (List Issue) Value :=
  match data with
  | Value.vobj fs =>
    let unknown := unknownFields s fs
    let issues := fieldIssues s fs ++
      (if mode = UnknownKeys.strict ∧ ¬ unknown.isEmpty
       then [⟨[], unrecognizedMessage unknown⟩] else [])
    if issues.isEmpty then
      Except.ok (Value.vobj (parsedFields s fs ++
        (if mode = UnknownKeys.passthrough then unknown else [])))
    else Except.error issues
  | _ => Except.error [⟨[], "Expected object, received other type"⟩]

/-- App-level configuration (`TypedAppConfig` with defaults applied). -/
structure AppCfg where
  strict : Bool
  validateResponses : Bool
  logValidationErrors : Bool

/-- One entry of a `ValidationError`'s `details` list:
`{ path: issue.path.join('.'), message: issue.message, value: data }`. -/
structure Detail where
  path : String
  message : String
  value : Value
deriving Repr

/-- The `ValidationError` class: message and details (its fixed
`statusCode = 400` field is never read by the adapter and is omitted). -/
structure ValidationError where
  message : String
  details : List Detail
deriving Repr

/-- `validateData(data, schema, context, strict?)` from typed-app.ts:
resolve strictness (`strict ?? appConfig.strict`), pick `.strict()` when
that is true and the schema supports it, otherwise `.passthrough()`,
parse, and on failure throw a `ValidationError` whose details carry the
dotted path, the issue message and the full input payload. -/
def validateData (app : AppCfg) (data : Value) (schema : ZodObject)
    (context : String) (strict : Option Bool) : Except ValidationError Value :=
  let shouldBeStrict := strict.getD app.strict
  let mode := if shouldBeStrict ∧ schema.hasStrict
    then UnknownKeys.strict else UnknownKeys.passthrough
  match zodParse schema mode data with
  | Except.ok d => Except.ok d
  | Except.error issues =>
    Except.error ⟨"Validation failed for " ++ context,
      issues.map (fun i =>
        ⟨String.intercalate "." i.path, i.message, data⟩)⟩

/-- `validateResponse(data, schema, statusCode, strict?)` from
typed-app.ts: validate with context `response (<code>)`; on failure
rethrow only when `NODE_ENV === 'development'` (`dev`), otherwise log
and return the original, unvalidated data. -/
def validateResponse (app : AppCfg) (dev : Bool) (data : Value)
    (schema : ZodObject) (statusCode : Nat) (strict : Option Bool) :
    Except ValidationError Value :=
  match validateData app data schema
      ("response (" ++ toString statusCode ++ ")") strict with
  | Except.ok d => Except.ok d
  | Except.error e => if dev then Except.error e else Except.ok data

/-- The request object as the adapter reads it: parsed `query`, `params`
and `body`, each possibly absent (`req.query || {}` etc.). -/
structure Req where
  query : Option Value
  params : Option Value
  body : Option Value

/-- The response object: mutable `statusCode`, the `headersSent` flag,
and the trace of performed `send(body, status, contentType)` calls. -/
structure Res where
  statusCode : Option Nat
  headersSent : Bool
  sent : List (Value × Nat × String)

/-- `res.send(body, code, {'Content-Type': ct})`: records the write,
sets the status and flips `headersSent`. -/
def Res.send (r : Res) (body : Value) (code : Nat) (ct : String) : Res :=
  { statusCode := some code, headersSent := true,
    sent := r.sent ++ [(body, code, ct)] }

/-- How the business handler terminates: a returned value (`none` =
`undefined`), a thrown `ValidationError`, or any other thrown value
(`some m` = an `Error` with message `m`, `none` = a non-`Error`). -/
inductive HandlerOutcome where
  | ret : Option Value → HandlerOutcome
  | throwVal : ValidationError → HandlerOutcome
  | throwErr : Option String → HandlerOutcome

/-- Everything a handler can do through the interface the adapter hands
it: its own `res.send` calls (body and status; the content type it
passes is not modelled), an optional assignment to `res.statusCode`,
and how it terminates. -/
structure HandlerRun where
  didSend : List (Value × Nat)
  setStatus : Option Nat
  outcome : HandlerOutcome

/-- Replay the handler's effects on the response object. -/
def applyRun (r : Res) (run : HandlerRun) : Res :=
  let r1 := run.didSend.foldl (fun acc bs => acc.send bs.1 bs.2 "") r
  { r1 with statusCode := match run.setStatus with
      | some s => some s
      | none => r1.statusCode }

/-- The `schema` field of a route config: optional validators for
`query`/`params`/`body` and the optional `responses` mapping (each
entry's `description` never influences request handling and is
omitted). -/
structure RouteSchema where
  query : Option ZodObject
  params : Option ZodObject
  body : Option ZodObject
  responses : Option (List (Nat × ZodObject))

/-- A route config as `createValidatedHandler` consumes it.  The handler
is a function of the validated `query`/`params`/`body` (its access to
`req`/`res` is captured by the `HandlerRun` effects). -/
structure RouteConfig where
  schema : Option RouteSchema
  strict : Option Bool
  validateResponse : Option Bool
  handler : Value → Value → Value → HandlerRun

/-- JavaScript's `hay.includes(needle)` substring test. -/
def strIncludes (hay needle : String) : Bool :=
  go hay.toList needle.toList
where
  go : List Char → List Char → Bool
    | [], needle => needle.isEmpty
    | c :: rest, needle => needle.isPrefixOf (c :: rest) || go rest needle

/-- `details` rendered as the JSON the error responses embed. -/
def detailToValue (d : Detail) : Value :=
  Value.vobj [("path", Value.vstr d.path), ("message", Value.vstr d.message),
    ("value", d.value)]

/-- Body of the 400 input-validation error response. -/
def validationFailedBody (e : ValidationError) : Value :=
  Value.vobj [("error", Value.vstr "Validation failed"),
    ("message", Value.vstr e.message),
    ("details", Value.vlist (e.details.map detailToValue))]

/-- Body of the 500 response-validation error response. -/
def responseValidationBody (e : ValidationError) : Value :=
  Value.vobj [("error", Value.vstr "Response validation failed"),
    ("message", Value.vstr e.message),
    ("details", Value.vlist (e.details.map detailToValue))]

/-- Body of the generic 500 error response. -/
def internalErrorBody (msg : Option String) : Value :=
  Value.vobj [("error", Value.vstr "Internal Server Error"),
    ("message", Value.vstr (msg.getD "An unexpected error occurred"))]

/-- What reached the adapter's `catch` block. -/
inductive Thrown where
  | val : ValidationError → Thrown
  | other : Option String → Thrown

/-- The `catch` block of `createValidatedHandler`: if headers are
already sent, log and return without writing; else classify a
`ValidationError` by whether its message contains `"response ("` and
send 500/400 accordingly; any other throwable becomes a generic 500. -/
def catchBlock (r : Res) (err : Thrown) : Res :=
  if r.headersSent then r
  else match err with
    | Thrown.val e =>
      if strIncludes e.message "response (" then
        r.send (responseValidationBody e) 500 "application/json"
      else
        r.send (validationFailedBody e) 400 "application/json"
    | Thrown.other m =>
      r.send (internalErrorBody m) 500 "application/json"

/-- Lines 183–196 of typed-app.ts, one input: validated when its schema
is configured, passed through as-is otherwise, an absent value
substituted by an empty object. -/
def resolveOne (app : AppCfg) (osch : Option ZodObject) (raw : Option Value)
    (context : String) (strict : Option Bool) : Except ValidationError Value :=
  match osch with
  | some s => validateData app (raw.getD (Value.vobj [])) s context strict
  | none => Except.ok (raw.getD (Value.vobj []))

/-- The three `const X = config.schema?.X ? validateData(...) : req.X || {}`
lines in order; the first thrown `ValidationError` aborts the rest. -/
def resolveInputs (app : AppCfg) (cfg : RouteConfig) (req : Req) :
    Except ValidationError (Value × Value × Value) := do
  let query ← resolveOne app (cfg.schema.bind (·.query)) req.query "query" cfg.strict
  let params ← resolveOne app (cfg.schema.bind (·.params)) req.params "params" cfg.strict
  let body ← resolveOne app (cfg.schema.bind (·.body)) req.body "body" cfg.strict
  pure (query, params, body)

/-- The response schema consulted on the success path:
`routeValidateResponse && config.schema?.responses` followed by
`config.schema.responses[200]?.schema`. -/
def responseSchema200 (app : AppCfg) (cfg : RouteConfig) : Option ZodObject :=
  if cfg.validateResponse.getD app.validateResponses then
    match cfg.schema with
    | some sch =>
      match sch.responses with
      | some resps => resps.lookup 200
      | none => none
    | none => none
  else none

/-- The async function returned by `createValidatedHandler`, for one
request: validate inputs, run the handler, and either send the
(optionally validated) result — skipped entirely when `headersSent` —
or run the `catch` block.  `dev` is `NODE_ENV === 'development'`. -/
def handleRequest (app : AppCfg) (dev : Bool) (cfg : RouteConfig)
    (req : Req) (r : Res) : Res :=
  match resolveInputs app cfg req with
  | Except.error e => catchBlock r (Thrown.val e)
  | Except.ok (query, params, body) =>
    let run := cfg.handler query params body
    let r1 := applyRun r run
    match run.outcome with
    | HandlerOutcome.throwVal e => catchBlock r1 (Thrown.val e)
    | HandlerOutcome.throwErr m => catchBlock r1 (Thrown.other m)
    | HandlerOutcome.ret rv =>
      if r1.headersSent then r1
      else
        let responseData := rv.getD (Value.vobj [])
        match responseSchema200 app cfg with
        | some s =>
          match validateResponse app dev responseData s 200 cfg.strict with
          | Except.ok d => r1.send d (r1.statusCode.getD 200) "application/json"
          | Except.error e => catchBlock r1 (Thrown.val e)
        | none => r1.send responseData (r1.statusCode.getD 200) "application/json"

/-- The `path` argument of a registration: a single pattern or a
non-empty array of patterns. -/
inductive PathArg where
  | single : String → PathArg
  | multi : String → List String → PathArg

/-- `Array.isArray(path) ? path[0] : path`. -/
def firstPath : PathArg → String
  | PathArg.single s => s
  | PathArg.multi hd _ => hd

/-- One entry of the route registry, as `registerRoute` pushes it. -/
structure RouteEntry where
  method : String
  path : String
  schema : Option RouteSchema
  metadata : Option (List (String × String))

/-- `registerRoute(method, path, config)`: append one entry recording
the upper-cased method, the first path of an array argument, and the
config's schema and metadata.  (The call also hands all paths and the
validated handler to the underlying Restana service, which is outside
the registry model.) -/
def registerRoute (routes : List RouteEntry) (method : String)
    (path : PathArg) (schema : Option RouteSchema)
    (metadata : Option (List (String × String))) : List RouteEntry :=
  routes ++
    [{ method := method.toUpper, path := firstPath path,
       schema := schema, metadata := metadata }]

/-- `typedApp.getRoutes()`: returns the registry list itself. -/
def getRoutes (routes : List RouteEntry) : List RouteEntry := routes

def braceOpen : Char := Char.ofNat 123

def braceClose : Char := Char.ofNat 125

/-- JavaScript's `path.replace(/:([^\x2f]+)/g, '\x7b$1\x7d')` as a
left-to-right scan: a colon followed by at least one non-slash
character opens a braced run (`inRun = true`) that swallows the maximal
following run of non-slash characters — exactly the greedy match of the
regex — and is closed before the next slash or at the end of the
path. -/
def ctbGo : Bool → List Char → List Char
  | true, [] => [braceClose]
  | false, [] => []
  | true, c :: rest =>
    if c = '/' then braceClose :: '/' :: ctbGo false rest
    else c :: ctbGo true rest
  | false, c :: rest =>
    if c = ':' then
      match rest with
      | [] => [':']
      | d :: rest2 =>
        if d = '/' then ':' :: '/' :: ctbGo false rest2
        else braceOpen :: d :: ctbGo true rest2
    else c :: ctbGo false rest

/-- The colon-to-brace rewrite of a whole path. -/
def colonToBrace (l : List Char) : List Char := ctbGo false l

/-- The path key of the output document. -/
def convertPath (p : String) : String := String.mk (colonToBrace p.toList)

/-- The structural JSON-Schema representation of an object schema:
`properties` (name, converted sub-schema) and the `required` name
list. -/
structure JsonSchemaObj where
  properties : List (String × Value)
  required : List String

/-- A converted schema as the generator inspects it. -/
inductive DocSchema where
  | objSchema : JsonSchemaObj → DocSchema
  | other : Value → DocSchema

/-- One entry of an operation's `parameters` array. -/
structure ParamDescr where
  name : String
  «in» : String
  required : Bool
  schema : Value

/-- Lines 98–105 of openapi.ts: flatten the query schema's top-level
properties into `in: "query"` descriptors, required exactly when listed
in the schema's `required` array. -/
def queryParameters (js : JsonSchemaObj) : List ParamDescr :=
  js.properties.map (fun ns =>
    { name := ns.1, «in» := "query", required := js.required.contains ns.1,
      schema := ns.2 })

/-- Lines 120–129 of openapi.ts: flatten the params schema's top-level
properties into `in: "path"` descriptors, always `required: true`. -/
def pathParameters (js : JsonSchemaObj) : List ParamDescr :=
  js.properties.map (fun ns =>
    { name := ns.1, «in» := "path", required := true, schema := ns.2 })

/-- A response descriptor of the output document. -/
structure ResponseDescr where
  description : String
  content : Option DocSchema

/-- Route metadata consulted by the generator. -/
structure DocMetadata where
  summary : Option String
  description : Option String
  tags : Option (List String)
  operationId : Option String
  deprecated : Bool

/-- A route's schemas, already converted by `zodToJsonSchema`. -/
structure DocRouteSchema where
  query : Option DocSchema
  params : Option DocSchema
  body : Option DocSchema
  responses : Option (List (String × Option DocSchema × Option String))

/-- A registry entry as the generator consumes it. -/
structure DocRoute where
  method : String
  path : String
  schema : Option DocRouteSchema
  metadata : Option DocMetadata

/-- One operation object of the output document. -/
structure Operation where
  operationId : String
  summary : String
  description : String
  tags : List String
  deprecated : Bool
  requestBody : Option DocSchema
  parameters : Option (List ParamDescr)
  responses : List (String × ResponseDescr)

/-- Lines 58–174 of openapi.ts: assemble the operation object for a
route that has a schema. -/
def buildOperation (index : Nat) (method pathKey : String)
    (sch : DocRouteSchema) (metadata : Option DocMetadata) : Operation :=
  let qp : Option (List ParamDescr) := match sch.query with
    | some (DocSchema.objSchema o) => some (queryParameters o)
    | _ => none
  let pp : Option (List ParamDescr) := match sch.params with
    | some (DocSchema.objSchema o) => some (pathParameters o)
    | _ => none
  { operationId := ((metadata.bind (·.operationId)).getD
      (method ++ String.mk (pathKey.toList.filter Char.isAlphanum) ++ toString index)),
    summary := (metadata.bind (·.summary)).getD (method.toUpper ++ " " ++ pathKey),
    description := (metadata.bind (·.description)).getD "",
    tags := (metadata.bind (·.tags)).getD ["Default"],
    deprecated := (metadata.map (·.deprecated)).getD false,
    requestBody := sch.body,
    parameters := match qp, pp with
      | none, none => none
      | some a, none => some a
      | none, some b => some b
      | some a, some b => some (a ++ b),
    responses := match sch.responses with
      | some resps => resps.map (fun rc =>
          (rc.1, { description := (rc.2.2).getD ("Response " ++ rc.1),
                   content := rc.2.1 }))
      | none => [("200", { description := "Success", content := none })] }

/-- `paths[pathKey][method] = operation` on an association-list model of
the `paths` object: overwrite the method key if present, else append. -/
def setMethod (ops : List (String × Operation)) (m : String)
    (op : Operation) : List (String × Operation) :=
  if ops.any (fun x => x.1 = m) then
    ops.map (fun x => if x.1 = m then (m, op) else x)
  else ops ++ [(m, op)]

/-- `if (!paths[pathKey]) paths[pathKey] = {}` followed by the method
assignment. -/
def setPath (paths : List (String × List (String × Operation)))
    (key m : String) (op : Operation) :
    List (String × List (String × Operation)) :=
  if paths.any (fun x => x.1 = key) then
    paths.map (fun x => if x.1 = key then (key, setMethod x.2 m op) else x)
  else paths ++ [(key, setMethod [] m op)]

/-- The `routes.forEach((route, index) => ...)` body: a route without a
schema contributes nothing; otherwise its operation is stored under the
brace-converted path and lower-cased method. -/
def pathsStep (acc : List (String × List (String × Operation)))
    (ir : Nat × DocRoute) : List (String × List (String × Operation)) :=
  match ir.2.schema with
  | none => acc
  | some sch =>
    setPath acc (convertPath ir.2.path) (ir.2.method.toLower)
      (buildOperation ir.1 (ir.2.method.toLower) (convertPath ir.2.path)
        sch ir.2.metadata)

/-- Fold of `pathsStep` over an enumerated route list. -/
def pathsFromEnum (l : List (Nat × DocRoute))
    (acc : List (String × List (String × Operation))) :
    List (String × List (String × Operation)) :=
  l.foldl pathsStep acc

/-- The `paths` component of `generateOpenApiSpec(app)`: every route of
the registry, in order, with its running index. -/
def generateOpenApiPaths (routes : List DocRoute) :
    List (String × List (String × Operation)) :=
  pathsFromEnum routes.enum []

/-- The registry entry `registerRoute` pushes. -/
def routeEntryOf (method : String) (path : PathArg)
    (schema : Option RouteSchema)
    (metadata : Option (List (String × String))) : RouteEntry :=
  { method := method.toUpper, path := firstPath path, schema := schema, metadata := metadata }

/-- A path segment the claim speaks about: slash-free, and either
colon-free or a colon-prefixed parameter name. -/
def goodSeg (s : List Char) : Prop :=
  (∀ c ∈ s, c ≠ '/') ∧ ((∀ c ∈ s, c ≠ ':') ∨ ∃ t, s = ':' :: t ∧ t ≠ [])

/-- Slash-separated concatenation of segments. -/
def joinSlash : List (List Char) → List Char
  | [] => []
  | [s] => s
  | s :: s2 :: rest => s ++ '/' :: joinSlash (s2 :: rest)

/-- The brace convention for one segment: `:name` becomes
`\x7bname\x7d`, anything else is unchanged. -/
def braceSeg (seg : List Char) : List Char :=
  match seg with
  | c :: d :: t => if c = ':' then braceOpen :: d :: (t ++ [braceClose]) else seg
  | _ => seg

/-- A required string field, as a Zod `z.string()` property behaves. -/
def strField (nm : String) : FieldSchema :=
  ⟨nm, fun v => match v with
    | some (Value.vstr s) => Except.ok (some (Value.vstr s))
    | some _ => Except.error "Expected string, received other type"
    | none => Except.error "Required"⟩

/-- `z.object({name: z.string(), email: z.string()})`. -/
def userSchema : ZodObject := ⟨[strField "name", strField "email"], true⟩

def demoApp : AppCfg := ⟨false, true, true⟩

def johnNoEmail : Value := Value.vobj [("name", Value.vstr "John")]

def emptyReq : Req := ⟨none, none, none⟩

def freshRes : Res := ⟨none, false, []⟩

/-- A route declaring `responses[200]` with the user schema. -/
def c1Schema : RouteSchema :=
  { query := none
    params := none
    body := none
    responses := some [(200, userSchema)] }

/-- Route with response validation enabled whose handler returns a value
missing the required `email` field. -/
def c1Cfg : RouteConfig :=
  { schema := some c1Schema
    strict := none
    validateResponse := some true
    handler := fun _ _ _ => ⟨[], none, HandlerOutcome.ret (some johnNoEmail)⟩ }

/-- The response-validation error produced for `johnNoEmail`. -/
def c1Err : ValidationError :=
  ⟨"Validation failed for response (200)",
    [⟨"email", "Required", johnNoEmail⟩]⟩

def badQueryReq : Req :=
  ⟨some (Value.vobj [("name", Value.vnum 1)]), none, none⟩

def c3Schema : RouteSchema :=
  { query := some userSchema
    params := none
    body := none
    responses := none }

/-- Route validating its query against `userSchema`. -/
def c3Cfg : RouteConfig :=
  { schema := some c3Schema
    strict := none
    validateResponse := some false
    handler := fun _ _ _ => ⟨[], none, HandlerOutcome.ret none⟩ }

/-- The input-validation error for `badQueryReq`. -/
def c3Err : ValidationError :=
  ⟨"Validation failed for query",
    [⟨"name", "Expected string, received other type",
      Value.vobj [("name", Value.vnum 1)]⟩,
     ⟨"email", "Required", Value.vobj [("name", Value.vnum 1)]⟩]⟩

/-- Schema-less route whose handler returns `undefined`. -/
def c5Cfg : RouteConfig :=
  { schema := none
    strict := none
    validateResponse := some false
    handler := fun _ _ _ => ⟨[], none, HandlerOutcome.ret none⟩ }

/-- Route whose handler throws `Error("boom")`. -/
def c6Cfg : RouteConfig :=
  { schema := none
    strict := none
    validateResponse := some false
    handler := fun _ _ _ => ⟨[], none, HandlerOutcome.throwErr (some "boom")⟩ }

/-- Route whose handler itself throws a `ValidationError` whose message
lacks the `"response ("` substring. -/
def c10Cfg : RouteConfig :=
  { schema := none
    strict := none
    validateResponse := some false
    handler := fun _ _ _ => ⟨[], none, HandlerOutcome.throwVal ⟨"custom error", []⟩⟩ }

def js8 : JsonSchemaObj :=
  ⟨[("search", Value.vnull), ("page", Value.vnull)], ["page"]⟩

def r9 : DocRoute := ⟨"GET", "/health", none, none⟩

/-! ## Theorems -/

theorem foldlSend_sent (ds : List (Value × Nat)) (r : Res) :
    (ds.foldl (fun acc bs => acc.send bs.1 bs.2 "") r).sent =
      r.sent ++ ds.map (fun bs => (bs.1, bs.2, "")) := by
  induction ds generalizing r with
  | nil => simp
  | cons d ds ih =>
    rw [List.foldl_cons, ih]
    simp [Res.send]

theorem foldlSend_headersSent (ds : List (Value × Nat)) (r : Res) :
    (ds.foldl (fun acc bs => acc.send bs.1 bs.2 "") r).headersSent =
      (r.headersSent || ¬ ds.isEmpty) := by
  induction ds generalizing r with
  | nil => simp
  | cons d ds ih =>
    rw [List.foldl_cons, ih]
    simp [Res.send]

theorem applyRun_sent (r : Res) (run : HandlerRun) :
    (applyRun r run).sent = r.sent ++ run.didSend.map (fun bs => (bs.1, bs.2, "")) := by
  simp [applyRun, foldlSend_sent]

theorem applyRun_headersSent (r : Res) (run : HandlerRun) :
    (applyRun r run).headersSent = (r.headersSent || ¬ run.didSend.isEmpty) := by
  simp [applyRun, foldlSend_headersSent]

theorem applyRun_no_effects (r : Res) (o : HandlerOutcome) :
    applyRun r ⟨[], none, o⟩ = r := by
  simp [applyRun]

theorem catchBlock_sent_of_headersSent (r : Res) (err : Thrown)
    (h : r.headersSent = true) : catchBlock r err = r := by
  simp [catchBlock, h]

theorem catchBlock_sent_length (r : Res) (err : Thrown)
    (h : r.headersSent = false) :
    (catchBlock r err).sent.length = r.sent.length + 1 := by
  cases err with
  | val e =>
    by_cases hm : strIncludes e.message "response (" = true
    · simp [catchBlock, h, hm, Res.send]
    · simp [catchBlock, h, hm, Res.send]
  | other m => simp [catchBlock, h, Res.send]

theorem validateData_error_message (app : AppCfg) (data : Value)
    (schema : ZodObject) (context : String) (strict : Option Bool)
    (e : ValidationError)
    (h : validateData app data schema context strict = Except.error e) :
    e.message = "Validation failed for " ++ context := by
  simp only [validateData] at h
  split at h
  · exact absurd h (by simp)
  · rw [Except.error.injEq] at h
    rw [← h]

theorem strIncludesGo_iff (needle : List Char) : ∀ hay : List Char,
    strIncludes.go hay needle = true ↔ ∃ s t, hay = s ++ needle ++ t := by
  intro hay
  induction hay with
  | nil =>
    simp only [strIncludes.go, List.isEmpty_iff]
    constructor
    · intro h
      exact ⟨[], [], by simp [h]⟩
    · rintro ⟨s, t, hst⟩
      have := hst.symm
      simp only [List.append_eq_nil] at this
      exact this.1.2
  | cons c rest ih =>
    simp only [strIncludes.go, Bool.or_eq_true, ih]
    constructor
    · rintro (hp | ⟨s, t, hst⟩)
      · rcases List.isPrefixOf_iff_prefix.mp hp with ⟨t, ht⟩
        exact ⟨[], t, by simp [ht]⟩
      · exact ⟨c :: s, t, by simp [hst]⟩
    · rintro ⟨s, t, hst⟩
      cases s with
      | nil =>
        left
        exact List.isPrefixOf_iff_prefix.mpr ⟨t, by simpa using hst.symm⟩
      | cons c' s' =>
        right
        simp only [List.cons_append, List.cons.injEq] at hst
        exact ⟨s', t, hst.2⟩

/-- `hay.includes(needle)` holds exactly when `needle` occurs as a
contiguous substring of `hay`. -/
theorem strIncludes_iff (hay needle : String) :
    strIncludes hay needle = true ↔
      ∃ s t, hay.toList = s ++ needle.toList ++ t := by
  unfold strIncludes
  exact strIncludesGo_iff needle.toList hay.toList

/-- C7: the route registry is append-only — every registration appends
exactly one entry (recording the first path when the path argument is
an array), existing entries are untouched, `getRoutes` returns the
entries in registration order, and registering the same method and path
twice yields two independent entries with no deduplication. -/
theorem routeRegistryAppendOnly (routes : List RouteEntry) (method : String)
    (path : PathArg) (schema : Option RouteSchema)
    (metadata : Option (List (String × String))) :
    (registerRoute routes method path schema metadata =
       routes ++ [routeEntryOf method path schema metadata])
    ∧ (getRoutes (registerRoute routes method path schema metadata) =
       getRoutes routes ++ [routeEntryOf method path schema metadata])
    ∧ (∀ hd tl, (routeEntryOf method (PathArg.multi hd tl) schema metadata).path = hd)
    ∧ ((registerRoute (registerRoute routes method path schema metadata)
          method path schema metadata).length = routes.length + 2) := by
  refine ⟨?_, ?_, ?_, ?_⟩ <;>
    simp [registerRoute, getRoutes, routeEntryOf, firstPath]

theorem pathsStep_none (acc : List (String × List (String × Operation)))
    (ir : Nat × DocRoute) (h : ir.2.schema = none) : pathsStep acc ir = acc := by
  simp [pathsStep, h]

theorem pathsFromEnum_cons (x : Nat × DocRoute) (l : List (Nat × DocRoute))
    (acc : List (String × List (String × Operation))) :
    pathsFromEnum (x :: l) acc = pathsFromEnum l (pathsStep acc x) := rfl

theorem pathsFromEnum_filter_isSome (l : List (Nat × DocRoute)) :
    ∀ acc, pathsFromEnum l acc =
      pathsFromEnum (l.filter (fun p => p.2.schema.isSome)) acc := by
  induction l with
  | nil => intro acc; rfl
  | cons x l ih =>
    intro acc
    rw [pathsFromEnum_cons, ih]
    by_cases hx : x.2.schema.isSome
    · have hfc : List.filter (fun p => p.2.schema.isSome) (x :: l) =
          x :: List.filter (fun p => p.2.schema.isSome) l := by
        simp [List.filter_cons, hx]
      rw [hfc, pathsFromEnum_cons]
    · have hfc : List.filter (fun p => p.2.schema.isSome) (x :: l) =
          List.filter (fun p => p.2.schema.isSome) l := by
        simp [List.filter_cons, hx]
      rw [hfc]
      rw [pathsStep_none]
      exact Option.not_isSome_iff_eq_none.mp (by simpa using hx)

theorem mem_setPath (paths : List (String × List (String × Operation)))
    (key m : String) (op : Operation) (k : String)
    (ops : List (String × Operation))
    (h : (k, ops) ∈ setPath paths key m op) :
    k = key ∨ ∃ ops', (k, ops') ∈ paths := by
  unfold setPath at h
  split at h
  · rcases List.mem_map.mp h with ⟨x, hx, heq⟩
    by_cases hk : x.1 = key
    · rw [if_pos hk] at heq
      left
      exact (congrArg Prod.fst heq).symm
    · rw [if_neg hk] at heq
      right
      refine ⟨x.2, ?_⟩
      have h1 : x.1 = k := congrArg Prod.fst heq
      rw [← h1]
      simpa using hx
  · rcases List.mem_append.mp h with h1 | h2
    · right
      exact ⟨ops, h1⟩
    · left
      simp only [List.mem_singleton, Prod.mk.injEq] at h2
      exact h2.1

theorem pathsFromEnum_key_origin (l : List (Nat × DocRoute)) :
    ∀ acc k ops, (k, ops) ∈ pathsFromEnum l acc →
      (∃ ops', (k, ops') ∈ acc) ∨
        ∃ ir, ir ∈ l ∧ ir.2.schema.isSome ∧ convertPath ir.2.path = k := by
  induction l with
  | nil =>
    intro acc k ops h
    exact Or.inl ⟨ops, h⟩
  | cons x l ih =>
    intro acc k ops h
    rw [pathsFromEnum_cons] at h
    rcases ih _ k ops h with ⟨ops', hacc⟩ | ⟨ir, hir, hs, hk⟩
    · rcases hsch : x.2.schema with _ | sch
      · rw [pathsStep_none _ _ hsch] at hacc
        exact Or.inl ⟨ops', hacc⟩
      · have hstep : pathsStep acc x =
            setPath acc (convertPath x.2.path) (x.2.method.toLower)
              (buildOperation x.1 (x.2.method.toLower) (convertPath x.2.path)
                sch x.2.metadata) := by
          simp [pathsStep, hsch]
        rw [hstep] at hacc
        rcases mem_setPath _ _ _ _ _ _ hacc with hkey | ⟨ops'', hacc'⟩
        · exact Or.inr ⟨x, List.mem_cons_self _ _, by simp [hsch], hkey.symm⟩
        · exact Or.inl ⟨ops'', hacc'⟩
    · exact Or.inr ⟨ir, List.mem_cons_of_mem _ hir, hs, hk⟩

theorem snd_mem_of_mem_enum {l : List DocRoute} {i : Nat} {r : DocRoute}
    (h : (i, r) ∈ l.enum) : r ∈ l := by
  have h2 : r ∈ l.enum.map Prod.snd := List.mem_map_of_mem Prod.snd h
  rwa [List.enum_map_snd] at h2

/-- C9: a route registered without a schema contributes nothing to the
generated document — the `paths` mapping equals the one generated from
the schema-bearing routes alone (indices preserved), every path key
originates from a route with a schema, and a registry with no schemas
at all yields an empty `paths` mapping. -/
theorem openApiOmitsSchemalessRoutes (routes : List DocRoute) :
    (generateOpenApiPaths routes =
      pathsFromEnum (routes.enum.filter (fun p => p.2.schema.isSome)) [])
    ∧ (∀ k ops, (k, ops) ∈ generateOpenApiPaths routes →
        ∃ r, r ∈ routes ∧ r.schema.isSome ∧ convertPath r.path = k)
    ∧ ((∀ r ∈ routes, r.schema = none) → generateOpenApiPaths routes = []) := by
  refine ⟨pathsFromEnum_filter_isSome _ _, ?_, ?_⟩
  · intro k ops h
    rcases pathsFromEnum_key_origin _ _ k ops h with ⟨ops', hacc⟩ | ⟨ir, hir, hs, hk⟩
    · exact absurd hacc (List.not_mem_nil _)
    · rcases ir with ⟨i, r⟩
      exact ⟨r, snd_mem_of_mem_enum hir, hs, hk⟩
  · intro hall
    rw [generateOpenApiPaths, pathsFromEnum_filter_isSome]
    have hnil : routes.enum.filter (fun p => p.2.schema.isSome) = [] := by
      apply List.filter_eq_nil_iff.mpr
      rintro ⟨i, r⟩ hm
      simp [hall r (snd_mem_of_mem_enum hm)]
    rw [hnil]
    rfl

theorem ctbGo_false_cons_ne (c : Char) (rest : List Char) (hc : c ≠ ':') :
    ctbGo false (c :: rest) = c :: ctbGo false rest := by
  cases rest with
  | nil => simp [ctbGo, hc]
  | cons d r2 => simp [ctbGo, hc]

theorem ctbGo_true_cons_ne (c : Char) (rest : List Char) (hc : c ≠ '/') :
    ctbGo true (c :: rest) = c :: ctbGo true rest := by
  simp [ctbGo, hc]

theorem ctbGo_true_slash (rest : List Char) :
    ctbGo true ('/' :: rest) = braceClose :: '/' :: ctbGo false rest := by
  simp [ctbGo]

theorem ctbGo_false_colon (d : Char) (rest : List Char) (hd : d ≠ '/') :
    ctbGo false (':' :: d :: rest) = braceOpen :: d :: ctbGo true rest := by
  simp [ctbGo, hd]

theorem ctbGo_false_append (s : List Char) (l : List Char)
    (h : ∀ c ∈ s, c ≠ ':') : ctbGo false (s ++ l) = s ++ ctbGo false l := by
  induction s with
  | nil => simp
  | cons c s ih =>
    have hc : c ≠ ':' := h c (List.mem_cons_self _ _)
    rw [List.cons_append, ctbGo_false_cons_ne c _ hc,
      ih (fun x hx => h x (List.mem_cons_of_mem _ hx))]
    rfl

theorem ctbGo_true_append (t : List Char) (l : List Char)
    (h : ∀ c ∈ t, c ≠ '/') :
    ctbGo true (t ++ '/' :: l) = t ++ braceClose :: '/' :: ctbGo false l := by
  induction t with
  | nil => simp [ctbGo_true_slash]
  | cons c t ih =>
    have hc : c ≠ '/' := h c (List.mem_cons_self _ _)
    rw [List.cons_append, ctbGo_true_cons_ne c _ hc,
      ih (fun x hx => h x (List.mem_cons_of_mem _ hx))]
    rfl

theorem ctbGo_true_end (t : List Char) (h : ∀ c ∈ t, c ≠ '/') :
    ctbGo true t = t ++ [braceClose] := by
  induction t with
  | nil => rfl
  | cons c t ih =>
    have hc : c ≠ '/' := h c (List.mem_cons_self _ _)
    rw [ctbGo_true_cons_ne c _ hc,
      ih (fun x hx => h x (List.mem_cons_of_mem _ hx))]
    rfl

theorem braceSeg_of_colon_free (s : List Char) (h : ∀ c ∈ s, c ≠ ':') :
    braceSeg s = s := by
  match s with
  | [] => rfl
  | [c] => rfl
  | c :: d :: t =>
    have hc : c ≠ ':' := h c (List.mem_cons_self _ _)
    simp [braceSeg, hc]

theorem colonToBrace_segments (segs : List (List Char))
    (h : ∀ s ∈ segs, goodSeg s) :
    colonToBrace (joinSlash segs) = joinSlash (segs.map braceSeg) := by
  induction segs with
  | nil => rfl
  | cons s rest ih =>
    have hs := h s (List.mem_cons_self _ _)
    have hrest : ∀ x ∈ rest, goodSeg x :=
      fun x hx => h x (List.mem_cons_of_mem _ hx)
    cases rest with
    | nil =>
      rcases hs with ⟨hslash, hfree | ⟨t, hteq, htne⟩⟩
      · show ctbGo false (joinSlash [s]) = joinSlash [braceSeg s]
        rw [braceSeg_of_colon_free s hfree]
        have h0 := ctbGo_false_append s [] hfree
        simpa [joinSlash, show ctbGo false [] = [] from rfl] using h0
      · subst hteq
        rcases t with _ | ⟨d, t2⟩
        · exact absurd rfl htne
        · have hd : d ≠ '/' := hslash d (by simp)
          show ctbGo false (joinSlash [':' :: d :: t2]) =
            joinSlash [braceSeg (':' :: d :: t2)]
          show ctbGo false (':' :: d :: t2) = joinSlash [braceSeg (':' :: d :: t2)]
          rw [ctbGo_false_colon d t2 hd,
            ctbGo_true_end t2 (fun x hx => hslash x (by simp [hx]))]
          simp [braceSeg, joinSlash]
    | cons s2 rest2 =>
      have hjoin : joinSlash (s :: s2 :: rest2) =
          s ++ '/' :: joinSlash (s2 :: rest2) := rfl
      have hjoin2 : joinSlash ((s :: s2 :: rest2).map braceSeg) =
          braceSeg s ++ '/' :: joinSlash ((s2 :: rest2).map braceSeg) := rfl
      rw [hjoin, hjoin2, ← ih hrest]
      rcases hs with ⟨hslash, hfree | ⟨t, hteq, htne⟩⟩
      · show ctbGo false (s ++ '/' :: joinSlash (s2 :: rest2)) =
          braceSeg s ++ '/' :: colonToBrace (joinSlash (s2 :: rest2))
        rw [braceSeg_of_colon_free s hfree, ctbGo_false_append s _ hfree,
          ctbGo_false_cons_ne '/' _ (by decide)]
        rfl
      · subst hteq
        rcases t with _ | ⟨d, t2⟩
        · exact absurd rfl htne
        · have hd : d ≠ '/' := hslash d (by simp)
          show ctbGo false ((':' :: d :: t2) ++ '/' :: joinSlash (s2 :: rest2)) =
            braceSeg (':' :: d :: t2) ++ '/' :: colonToBrace (joinSlash (s2 :: rest2))
          rw [List.cons_append, List.cons_append,
            ctbGo_false_colon d _ hd,
            ctbGo_true_append t2 _ (fun x hx => hslash x (by simp [hx]))]
          simp [braceSeg, colonToBrace]

/-- C8: in the generated operation, each top-level property of the
query schema becomes an `in: "query"` descriptor that is required
exactly when its name is in the schema's required set; each top-level
property of the params schema becomes an `in: "path"` descriptor that
is always `required: true`; and the document's path key rewrites every
colon-prefixed segment to the brace convention. -/
theorem openApiParameterDescriptors :
    (∀ js : JsonSchemaObj,
      ((queryParameters js).map (fun p => (p.name, p.schema)) = js.properties)
      ∧ ∀ p ∈ queryParameters js,
          p.«in» = "query" ∧ (p.required = true ↔ p.name ∈ js.required))
    ∧ (∀ js : JsonSchemaObj,
      ((pathParameters js).map (fun p => (p.name, p.schema)) = js.properties)
      ∧ ∀ p ∈ pathParameters js, p.«in» = "path" ∧ p.required = true)
    ∧ (∀ idx method pathKey sch meta qo po,
        sch.query = some (DocSchema.objSchema qo) →
        sch.params = some (DocSchema.objSchema po) →
        (buildOperation idx method pathKey sch meta).parameters =
          some (queryParameters qo ++ pathParameters po))
    ∧ (∀ segs, (∀ s ∈ segs, goodSeg s) →
        convertPath (String.mk (joinSlash segs)) =
          String.mk (joinSlash (segs.map braceSeg))) := by
  refine ⟨?_, ?_, ?_, ?_⟩
  · intro js
    constructor
    · simp only [queryParameters, List.map_map]
      exact List.map_id' js.properties
    · intro p hp
      rcases List.mem_map.mp hp with ⟨ns, hns, rfl⟩
      exact ⟨rfl, by simp⟩
  · intro js
    constructor
    · simp only [pathParameters, List.map_map]
      exact List.map_id' js.properties
    · intro p hp
      rcases List.mem_map.mp hp with ⟨ns, hns, rfl⟩
      exact ⟨rfl, rfl⟩
  · intro idx method pathKey sch meta qo po hq hp
    simp [buildOperation, hq, hp]
  · intro segs hgood
    show String.mk (colonToBrace (String.toList (String.mk (joinSlash segs)))) = _
    rw [show String.toList (String.mk (joinSlash segs)) = joinSlash segs from rfl]
    exact congrArg String.mk (colonToBrace_segments segs hgood)

theorem mem_unknownFields (s : ZodObject) (fs : List (String × Value))
    (k : String) (v : Value) (hmem : (k, v) ∈ fs)
    (hundecl : ∀ f ∈ s.fields, f.name ≠ k) : (k, v) ∈ unknownFields s fs := by
  apply List.mem_filter.mpr
  refine ⟨hmem, ?_⟩
  simp only [List.all_eq_true, decide_eq_true_eq]
  intro f hf
  exact hundecl f hf

theorem fieldIssues_eq_nil (s : ZodObject) (fs : List (String × Value))
    (h : ∀ f ∈ s.fields, ∃ v, f.check (fs.lookup f.name) = Except.ok v) :
    fieldIssues s fs = [] := by
  apply List.filterMap_eq_nil_iff.mpr
  intro f hf
  rcases h f hf with ⟨v, hv⟩
  simp [hv]

theorem zodParse_strict_of_unknown (s : ZodObject) (fs : List (String × Value))
    (hunk : ¬ (unknownFields s fs).isEmpty = true) :
    zodParse s UnknownKeys.strict (Value.vobj fs) =
      Except.error (fieldIssues s fs ++
        [⟨[], unrecognizedMessage (unknownFields s fs)⟩]) := by
  simp only [zodParse]
  have hA : True ∧ ¬ (unknownFields s fs).isEmpty = true := ⟨trivial, hunk⟩
  rw [if_pos hA]
  have hB : ¬ ((fieldIssues s fs ++
      [(⟨[], unrecognizedMessage (unknownFields s fs)⟩ : Issue)]).isEmpty = true) := by
    simp
  rw [if_neg hB]

theorem zodParse_passthrough_ok (s : ZodObject) (fs : List (String × Value))
    (hfi : fieldIssues s fs = []) :
    zodParse s UnknownKeys.passthrough (Value.vobj fs) =
      Except.ok (Value.vobj (parsedFields s fs ++ unknownFields s fs)) := by
  simp only [zodParse, hfi]
  have hA : ¬ (UnknownKeys.passthrough = UnknownKeys.strict ∧
      ¬ (unknownFields s fs).isEmpty = true) := by simp
  rw [if_neg hA]
  have hB : (([] : List Issue) ++ []).isEmpty = true := rfl
  rw [if_pos hB]
  simp

/-- C4: effective strictness is the route-level value when provided,
else the app default; with strictness true any payload containing an
undeclared field is rejected; with strictness false undeclared fields
are accepted and retained unmodified on the validated object. -/
theorem strictnessResolution :
    (∀ (a1 a2 : AppCfg) (d : Value) (s : ZodObject) (c : String) (b : Bool),
        validateData a1 d s c (some b) = validateData a2 d s c (some b))
    ∧ (∀ (a : AppCfg) (d : Value) (s : ZodObject) (c : String),
        validateData a d s c none = validateData a d s c (some a.strict))
    ∧ (∀ (a : AppCfg) (s : ZodObject) (fs : List (String × Value))
        (c : String) (k : String) (v : Value),
        s.hasStrict = true → (k, v) ∈ fs → (∀ f ∈ s.fields, f.name ≠ k) →
        ∃ e, validateData a (Value.vobj fs) s c (some true) = Except.error e)
    ∧ (∀ (a : AppCfg) (s : ZodObject) (fs : List (String × Value)) (c : String),
        (∀ f ∈ s.fields, ∃ v, f.check (fs.lookup f.name) = Except.ok v) →
        ∃ out, validateData a (Value.vobj fs) s c (some false) =
            Except.ok (Value.vobj out)
          ∧ ∀ k v, (k, v) ∈ fs → (∀ f ∈ s.fields, f.name ≠ k) → (k, v) ∈ out) := by
  refine ⟨fun a1 a2 d s c b => rfl, fun a d s c => rfl, ?_, ?_⟩
  · intro a s fs c k v hstrict hmem hundecl
    have hunk : ¬ (unknownFields s fs).isEmpty = true := by
      simp only [List.isEmpty_iff]
      exact List.ne_nil_of_mem (mem_unknownFields s fs k v hmem hundecl)
    refine ⟨ValidationError.mk ("Validation failed for " ++ c)
      ((fieldIssues s fs ++
        [Issue.mk [] (unrecognizedMessage (unknownFields s fs))]).map
          (fun i => Detail.mk (String.intercalate "." i.path) i.message
            (Value.vobj fs))), ?_⟩
    simp [validateData, hstrict, zodParse_strict_of_unknown s fs hunk]
  · intro a s fs c h
    refine ⟨parsedFields s fs ++ unknownFields s fs, ?_, ?_⟩
    · simp [validateData,
        zodParse_passthrough_ok s fs (fieldIssues_eq_nil s fs h)]
    · intro k v hmem hundecl
      exact List.mem_append_right _ (mem_unknownFields s fs k v hmem hundecl)

theorem exceptBind_ok {ε α β : Type} (a : α) (f : α → Except ε β) :
    (Except.ok a >>= f : Except ε β) = f a := rfl

theorem exceptBind_error {ε α β : Type} (e : ε) (f : α → Except ε β) :
    ((Except.error e : Except ε α) >>= f : Except ε β) = Except.error e := rfl

theorem exceptMap_ok {ε α β : Type} (f : α → β) (a : α) :
    (f <$> (Except.ok a : Except ε α) : Except ε β) = Except.ok (f a) := rfl

theorem resolveInputs_ok (app : AppCfg) (cfg : RouteConfig) (req : Req)
    (qv pv bv : Value)
    (hq : resolveOne app (cfg.schema.bind (·.query)) req.query "query" cfg.strict
      = Except.ok qv)
    (hp : resolveOne app (cfg.schema.bind (·.params)) req.params "params" cfg.strict
      = Except.ok pv)
    (hb : resolveOne app (cfg.schema.bind (·.body)) req.body "body" cfg.strict
      = Except.ok bv) :
    resolveInputs app cfg req = Except.ok (qv, pv, bv) := by
  simp [resolveInputs, hq, hp, hb, exceptBind_ok, exceptMap_ok]

theorem resolveInputs_query_error (app : AppCfg) (cfg : RouteConfig) (req : Req)
    (e : ValidationError)
    (hq : resolveOne app (cfg.schema.bind (·.query)) req.query "query" cfg.strict
      = Except.error e) :
    resolveInputs app cfg req = Except.error e := by
  simp [resolveInputs, hq, exceptBind_error]

theorem resolveInputs_params_error (app : AppCfg) (cfg : RouteConfig) (req : Req)
    (qv : Value) (e : ValidationError)
    (hq : resolveOne app (cfg.schema.bind (·.query)) req.query "query" cfg.strict
      = Except.ok qv)
    (hp : resolveOne app (cfg.schema.bind (·.params)) req.params "params" cfg.strict
      = Except.error e) :
    resolveInputs app cfg req = Except.error e := by
  simp [resolveInputs, hq, hp, exceptBind_ok, exceptBind_error]

theorem resolveInputs_body_error (app : AppCfg) (cfg : RouteConfig) (req : Req)
    (qv pv : Value) (e : ValidationError)
    (hq : resolveOne app (cfg.schema.bind (·.query)) req.query "query" cfg.strict
      = Except.ok qv)
    (hp : resolveOne app (cfg.schema.bind (·.params)) req.params "params" cfg.strict
      = Except.ok pv)
    (hb : resolveOne app (cfg.schema.bind (·.body)) req.body "body" cfg.strict
      = Except.error e) :
    resolveInputs app cfg req = Except.error e := by
  simp [resolveInputs, hq, hp, hb, exceptBind_ok, exceptBind_error]

theorem handleRequest_of_resolve_error (app : AppCfg) (dev : Bool)
    (cfg : RouteConfig) (req : Req) (r : Res) (e : ValidationError)
    (h : resolveInputs app cfg req = Except.error e) :
    handleRequest app dev cfg req r = catchBlock r (Thrown.val e) := by
  simp [handleRequest, h]

theorem catchBlock_input_error (r : Res) (e : ValidationError)
    (hr : r.headersSent = false)
    (hcls : strIncludes e.message "response (" = false) :
    catchBlock r (Thrown.val e) =
      r.send (validationFailedBody e) 400 "application/json" := by
  simp [catchBlock, hr, hcls]

theorem catchBlock_response_error (r : Res) (e : ValidationError)
    (hr : r.headersSent = false)
    (hcls : strIncludes e.message "response (" = true) :
    catchBlock r (Thrown.val e) =
      r.send (responseValidationBody e) 500 "application/json" := by
  simp [catchBlock, hr, hcls]

theorem handleRequest_of_throwVal (app : AppCfg) (dev : Bool)
    (cfg : RouteConfig) (req : Req) (r : Res) (q p b : Value)
    (ds : List (Value × Nat)) (st : Option Nat) (e : ValidationError)
    (hres : resolveInputs app cfg req = Except.ok (q, p, b))
    (hh : cfg.handler q p b = ⟨ds, st, HandlerOutcome.throwVal e⟩) :
    handleRequest app dev cfg req r =
      catchBlock (applyRun r ⟨ds, st, HandlerOutcome.throwVal e⟩)
        (Thrown.val e) := by
  simp [handleRequest, hres, hh]

theorem handleRequest_of_throwErr (app : AppCfg) (dev : Bool)
    (cfg : RouteConfig) (req : Req) (r : Res) (q p b : Value)
    (ds : List (Value × Nat)) (st : Option Nat) (m : Option String)
    (hres : resolveInputs app cfg req = Except.ok (q, p, b))
    (hh : cfg.handler q p b = ⟨ds, st, HandlerOutcome.throwErr m⟩) :
    handleRequest app dev cfg req r =
      catchBlock (applyRun r ⟨ds, st, HandlerOutcome.throwErr m⟩)
        (Thrown.other m) := by
  simp [handleRequest, hres, hh]

theorem handleRequest_of_ret (app : AppCfg) (dev : Bool)
    (cfg : RouteConfig) (req : Req) (r : Res) (q p b : Value)
    (ds : List (Value × Nat)) (st : Option Nat) (rv : Option Value)
    (hres : resolveInputs app cfg req = Except.ok (q, p, b))
    (hh : cfg.handler q p b = ⟨ds, st, HandlerOutcome.ret rv⟩) :
    handleRequest app dev cfg req r =
      (if (applyRun r ⟨ds, st, HandlerOutcome.ret rv⟩).headersSent
       then applyRun r ⟨ds, st, HandlerOutcome.ret rv⟩
       else
         match responseSchema200 app cfg with
         | some s =>
           match validateResponse app dev (rv.getD (Value.vobj [])) s 200 cfg.strict with
           | Except.ok d =>
             (applyRun r ⟨ds, st, HandlerOutcome.ret rv⟩).send d
               ((applyRun r ⟨ds, st, HandlerOutcome.ret rv⟩).statusCode.getD 200)
               "application/json"
           | Except.error e2 =>
             catchBlock (applyRun r ⟨ds, st, HandlerOutcome.ret rv⟩) (Thrown.val e2)
         | none =>
           (applyRun r ⟨ds, st, HandlerOutcome.ret rv⟩).send (rv.getD (Value.vobj []))
             ((applyRun r ⟨ds, st, HandlerOutcome.ret rv⟩).statusCode.getD 200)
             "application/json") := by
  simp only [handleRequest, hres, hh]

/-- C3: an invalid `query`, `params` or `body` yields HTTP 400 with
body `{error: "Validation failed", message, details}`, each detail
carrying the dotted path, the validator's message and a copy of the
full input payload, in the validator's issue order. -/
theorem inputValidation400Response :
    (∀ (a : AppCfg) (data : Value) (s : ZodObject) (c : String)
        (st : Option Bool) (issues : List Issue),
        zodParse s (if st.getD a.strict ∧ s.hasStrict then UnknownKeys.strict
          else UnknownKeys.passthrough) data = Except.error issues →
        validateData a data s c st = Except.error
          ⟨"Validation failed for " ++ c,
            issues.map (fun i =>
              ⟨String.intercalate "." i.path, i.message, data⟩)⟩)
    ∧ (∀ (app : AppCfg) (dev : Bool) (cfg : RouteConfig) (req : Req) (r : Res)
        (sq : ZodObject) (e : ValidationError), r.headersSent = false →
        cfg.schema.bind (·.query) = some sq →
        validateData app (req.query.getD (Value.vobj [])) sq "query" cfg.strict
          = Except.error e →
        handleRequest app dev cfg req r =
          r.send (validationFailedBody e) 400 "application/json")
    ∧ (∀ (app : AppCfg) (dev : Bool) (cfg : RouteConfig) (req : Req) (r : Res)
        (qv : Value) (sp : ZodObject) (e : ValidationError),
        r.headersSent = false →
        resolveOne app (cfg.schema.bind (·.query)) req.query "query" cfg.strict
          = Except.ok qv →
        cfg.schema.bind (·.params) = some sp →
        validateData app (req.params.getD (Value.vobj [])) sp "params" cfg.strict
          = Except.error e →
        handleRequest app dev cfg req r =
          r.send (validationFailedBody e) 400 "application/json")
    ∧ (∀ (app : AppCfg) (dev : Bool) (cfg : RouteConfig) (req : Req) (r : Res)
        (qv pv : Value) (sb : ZodObject) (e : ValidationError),
        r.headersSent = false →
        resolveOne app (cfg.schema.bind (·.query)) req.query "query" cfg.strict
          = Except.ok qv →
        resolveOne app (cfg.schema.bind (·.params)) req.params "params" cfg.strict
          = Except.ok pv →
        cfg.schema.bind (·.body) = some sb →
        validateData app (req.body.getD (Value.vobj [])) sb "body" cfg.strict
          = Except.error e →
        handleRequest app dev cfg req r =
          r.send (validationFailedBody e) 400 "application/json") := by
  refine ⟨?_, ?_, ?_, ?_⟩
  · intro a data s c st issues h
    simp only [validateData, h]
  · intro app dev cfg req r sq e hr hsch hval
    have hro : resolveOne app (cfg.schema.bind (·.query)) req.query "query"
        cfg.strict = Except.error e := by
      simp [resolveOne, hsch, hval]
    rw [handleRequest_of_resolve_error _ _ _ _ _ _
      (resolveInputs_query_error _ _ _ _ hro)]
    refine catchBlock_input_error r e hr ?_
    rw [validateData_error_message _ _ _ _ _ _ hval]
    decide
  · intro app dev cfg req r qv sp e hr hq hsch hval
    have hro : resolveOne app (cfg.schema.bind (·.params)) req.params "params"
        cfg.strict = Except.error e := by
      simp [resolveOne, hsch, hval]
    rw [handleRequest_of_resolve_error _ _ _ _ _ _
      (resolveInputs_params_error _ _ _ _ _ hq hro)]
    refine catchBlock_input_error r e hr ?_
    rw [validateData_error_message _ _ _ _ _ _ hval]
    decide
  · intro app dev cfg req r qv pv sb e hr hq hp hsch hval
    have hro : resolveOne app (cfg.schema.bind (·.body)) req.body "body"
        cfg.strict = Except.error e := by
      simp [resolveOne, hsch, hval]
    rw [handleRequest_of_resolve_error _ _ _ _ _ _
      (resolveInputs_body_error _ _ _ _ _ _ hq hp hro)]
    refine catchBlock_input_error r e hr ?_
    rw [validateData_error_message _ _ _ _ _ _ hval]
    decide

/-- C10: a caught `ValidationError` is classified as a
response-validation failure (500) exactly when its message contains the
substring `"response ("`, and as an input-validation failure (400)
otherwise — in particular a handler-thrown `ValidationError` without
that substring is reported as 400. -/
theorem validationErrorClassification :
    (∀ hay needle : String, strIncludes hay needle = true ↔
      ∃ s t, hay.toList = s ++ needle.toList ++ t)
    ∧ (∀ (app : AppCfg) (dev : Bool) (cfg : RouteConfig) (req : Req) (r : Res)
        (q p b : Value) (e : ValidationError), r.headersSent = false →
        resolveInputs app cfg req = Except.ok (q, p, b) →
        cfg.handler q p b = ⟨[], none, HandlerOutcome.throwVal e⟩ →
        handleRequest app dev cfg req r =
          if strIncludes e.message "response (" then
            r.send (responseValidationBody e) 500 "application/json"
          else
            r.send (validationFailedBody e) 400 "application/json") := by
  refine ⟨strIncludes_iff, ?_⟩
  intro app dev cfg req r q p b e hr hres hh
  rw [handleRequest_of_throwVal _ _ _ _ _ _ _ _ _ _ _ hres hh,
    applyRun_no_effects]
  by_cases hcl : strIncludes e.message "response (" = true
  · rw [if_pos hcl]
    exact catchBlock_response_error r e hr hcl
  · rw [if_neg hcl]
    exact catchBlock_input_error r e hr (by simpa using hcl)

/-- C6: a non-`ValidationError` exception from the business handler is
reported as HTTP 500 with body `{error: "Internal Server Error",
message}`, the message being the exception's own when available and a
generic string otherwise. -/
theorem handlerException500Response (app : AppCfg) (dev : Bool)
    (cfg : RouteConfig) (req : Req) (r : Res) (q p b : Value)
    (m : Option String) (hr : r.headersSent = false)
    (hres : resolveInputs app cfg req = Except.ok (q, p, b))
    (hh : cfg.handler q p b = ⟨[], none, HandlerOutcome.throwErr m⟩) :
    handleRequest app dev cfg req r =
      r.send (Value.vobj [("error", Value.vstr "Internal Server Error"),
        ("message", Value.vstr (m.getD "An unexpected error occurred"))])
        500 "application/json" := by
  rw [handleRequest_of_throwErr _ _ _ _ _ _ _ _ _ _ _ hres hh,
    applyRun_no_effects]
  simp [catchBlock, hr, internalErrorBody]

theorem sendSentLength (r : Res) (body : Value) (code : Nat) (ct : String) :
    ((r.send body code ct).sent).length = r.sent.length + 1 := by
  simp [Res.send]

/-- C2: with a fresh response object, the adapter produces exactly one
response per request — the handler's own write when it made one, the
adapter's otherwise — and when headers are already sent the adapter
never writes at all. -/
theorem singleResponsePerRequest (app : AppCfg) (dev : Bool)
    (cfg : RouteConfig) (req : Req) :
    (∀ r : Res, r.headersSent = false →
      (∀ q p b, (cfg.handler q p b).didSend.length ≤ 1) →
      (handleRequest app dev cfg req r).sent.length = r.sent.length + 1)
    ∧ (∀ r : Res, r.headersSent = true →
      (∀ q p b, (cfg.handler q p b).didSend = []) →
      (handleRequest app dev cfg req r).sent = r.sent) := by
  constructor
  · intro r hr hone
    rcases hres : resolveInputs app cfg req with e | ⟨q, p, b⟩
    · rw [handleRequest_of_resolve_error _ _ _ _ _ _ hres]
      exact catchBlock_sent_length r _ hr
    · rcases hh : cfg.handler q p b with ⟨ds, st, outcome⟩
      have hds : ds.length ≤ 1 := by
        have h0 := hone q p b
        rw [hh] at h0
        exact h0
      have hr1sent : ∀ o, (applyRun r ⟨ds, st, o⟩).sent.length =
          r.sent.length + ds.length := by
        intro o
        rw [applyRun_sent]
        simp
      have hr1hs : ∀ o, (applyRun r ⟨ds, st, o⟩).headersSent = !ds.isEmpty := by
        intro o
        rw [applyRun_headersSent, hr]
        simp
      cases outcome with
      | throwVal e =>
        rw [handleRequest_of_throwVal _ _ _ _ _ _ _ _ _ _ _ hres hh]
        by_cases hds0 : ds = []
        · have h0 : (applyRun r ⟨ds, st, HandlerOutcome.throwVal e⟩).headersSent
              = false := by
            rw [hr1hs]
            simp [hds0]
          rw [catchBlock_sent_length _ _ h0, hr1sent, hds0]
          simp
        · have hlen1 : ds.length = 1 :=
            Nat.le_antisymm hds (Nat.one_le_iff_ne_zero.mpr
              (by simpa [List.length_eq_zero] using hds0))
          have h1 : (applyRun r ⟨ds, st, HandlerOutcome.throwVal e⟩).headersSent
              = true := by
            rw [hr1hs]
            simp [List.isEmpty_iff, hds0]
          rw [catchBlock_sent_of_headersSent _ _ h1, hr1sent, hlen1]
      | throwErr m =>
        rw [handleRequest_of_throwErr _ _ _ _ _ _ _ _ _ _ _ hres hh]
        by_cases hds0 : ds = []
        · have h0 : (applyRun r ⟨ds, st, HandlerOutcome.throwErr m⟩).headersSent
              = false := by
            rw [hr1hs]
            simp [hds0]
          rw [catchBlock_sent_length _ _ h0, hr1sent, hds0]
          simp
        · have hlen1 : ds.length = 1 :=
            Nat.le_antisymm hds (Nat.one_le_iff_ne_zero.mpr
              (by simpa [List.length_eq_zero] using hds0))
          have h1 : (applyRun r ⟨ds, st, HandlerOutcome.throwErr m⟩).headersSent
              = true := by
            rw [hr1hs]
            simp [List.isEmpty_iff, hds0]
          rw [catchBlock_sent_of_headersSent _ _ h1, hr1sent, hlen1]
      | ret rv =>
        rw [handleRequest_of_ret _ _ _ _ _ _ _ _ _ _ _ hres hh]
        by_cases hds0 : ds = []
        · have h0 : (applyRun r ⟨ds, st, HandlerOutcome.ret rv⟩).headersSent
              = false := by
            rw [hr1hs]
            simp [hds0]
          rw [if_neg (by simp [h0])]
          rcases hsch : responseSchema200 app cfg with _ | s
          · rw [sendSentLength, hr1sent, hds0]
            simp
          · dsimp only
            rcases hvr : validateResponse app dev (rv.getD (Value.vobj [])) s 200
                cfg.strict with e2 | d
            · dsimp only
              rw [catchBlock_sent_length _ _ h0, hr1sent, hds0]
              simp
            · dsimp only
              rw [sendSentLength, hr1sent, hds0]
              simp
        · have hlen1 : ds.length = 1 :=
            Nat.le_antisymm hds (Nat.one_le_iff_ne_zero.mpr
              (by simpa [List.length_eq_zero] using hds0))
          have h1 : (applyRun r ⟨ds, st, HandlerOutcome.ret rv⟩).headersSent
              = true := by
            rw [hr1hs]
            simp [List.isEmpty_iff, hds0]
          rw [if_pos (by simp [h1]), hr1sent, hlen1]
  · intro r hr hnone
    rcases hres : resolveInputs app cfg req with e | ⟨q, p, b⟩
    · rw [handleRequest_of_resolve_error _ _ _ _ _ _ hres,
        catchBlock_sent_of_headersSent _ _ hr]
    · rcases hh : cfg.handler q p b with ⟨ds, st, outcome⟩
      have hds0 : ds = [] := by
        have h0 := hnone q p b
        rw [hh] at h0
        exact h0
      subst hds0
      have h1 : ∀ o, (applyRun r ⟨[], st, o⟩).headersSent = true := by
        intro o
        rw [applyRun_headersSent, hr]
        simp
      have h2 : ∀ o, (applyRun r ⟨[], st, o⟩).sent = r.sent := by
        intro o
        rw [applyRun_sent]
        simp
      cases outcome with
      | throwVal e =>
        rw [handleRequest_of_throwVal _ _ _ _ _ _ _ _ _ _ _ hres hh,
          catchBlock_sent_of_headersSent _ _ (h1 _), h2]
      | throwErr m =>
        rw [handleRequest_of_throwErr _ _ _ _ _ _ _ _ _ _ _ hres hh,
          catchBlock_sent_of_headersSent _ _ (h1 _), h2]
      | ret rv =>
        rw [handleRequest_of_ret _ _ _ _ _ _ _ _ _ _ _ hres hh,
          if_pos (by simp [h1]), h2]

theorem validateResponse_dev_error (app : AppCfg) (data : Value)
    (s : ZodObject) (st : Option Bool) (e : ValidationError)
    (h : validateData app data s ("response (" ++ toString 200 ++ ")") st
      = Except.error e) :
    validateResponse app true data s 200 st = Except.error e := by
  simp [validateResponse, h]

theorem validateResponse_prod_error (app : AppCfg) (data : Value)
    (s : ZodObject) (st : Option Bool) (e : ValidationError)
    (h : validateData app data s ("response (" ++ toString 200 ++ ")") st
      = Except.error e) :
    validateResponse app false data s 200 st = Except.ok data := by
  simp [validateResponse, h]

/-- C5: inputs are resolved in the order query, params, body, each
validated only when a schema is configured and passed through as-is
otherwise (an absent value becoming an empty object); a handler that
returns no value has an empty object substituted; the response is sent
with the status code already set on the response object (default 200)
and `Content-Type: application/json`. -/
theorem successPathPipeline :
    (∀ (a : AppCfg) (raw : Option Value) (c : String) (st : Option Bool),
        resolveOne a none raw c st = Except.ok (raw.getD (Value.vobj [])))
    ∧ (∀ (app : AppCfg) (cfg : RouteConfig) (req : Req) (qv pv bv : Value),
        resolveOne app (cfg.schema.bind (·.query)) req.query "query" cfg.strict
          = Except.ok qv →
        resolveOne app (cfg.schema.bind (·.params)) req.params "params" cfg.strict
          = Except.ok pv →
        resolveOne app (cfg.schema.bind (·.body)) req.body "body" cfg.strict
          = Except.ok bv →
        resolveInputs app cfg req = Except.ok (qv, pv, bv))
    ∧ (∀ (app : AppCfg) (cfg : RouteConfig) (req : Req) (e : ValidationError),
        resolveOne app (cfg.schema.bind (·.query)) req.query "query" cfg.strict
          = Except.error e →
        resolveInputs app cfg req = Except.error e)
    ∧ (∀ (app : AppCfg) (dev : Bool) (cfg : RouteConfig) (req : Req) (r : Res)
        (q p b : Value) (rv : Option Value) (st2 : Option Nat),
        r.headersSent = false →
        resolveInputs app cfg req = Except.ok (q, p, b) →
        cfg.handler q p b = ⟨[], st2, HandlerOutcome.ret rv⟩ →
        responseSchema200 app cfg = none →
        handleRequest app dev cfg req r =
          (applyRun r ⟨[], st2, HandlerOutcome.ret rv⟩).send
            (rv.getD (Value.vobj []))
            ((applyRun r ⟨[], st2, HandlerOutcome.ret rv⟩).statusCode.getD 200)
            "application/json")
    ∧ (∀ (r : Res) (o : HandlerOutcome) (sc : Nat),
        (applyRun r ⟨[], some sc, o⟩).statusCode = some sc)
    ∧ (∀ (r : Res) (o : HandlerOutcome),
        (applyRun r ⟨[], none, o⟩).statusCode = r.statusCode) := by
  refine ⟨fun a raw c st => rfl, resolveInputs_ok, resolveInputs_query_error,
    ?_, fun r o sc => rfl, fun r o => rfl⟩
  intro app dev cfg req r q p b rv st2 hr hres hh hsch
  rw [handleRequest_of_ret _ _ _ _ _ _ _ _ _ _ _ hres hh]
  have h0 : (applyRun r ⟨[], st2, HandlerOutcome.ret rv⟩).headersSent = false := by
    rw [applyRun_headersSent, hr]
    simp
  rw [if_neg (by simp [h0]), hsch]

/-- C1 (amended): a handler result that fails the declared
`responses[200]` schema is reported as HTTP 500 with body
`{error: "Response validation failed", message, details}` only when
`NODE_ENV` is `development`; in any other environment the failure is
logged and the unvalidated result is sent to the client as a success
response. -/
theorem responseValidationEnvironmentDependent (app : AppCfg)
    (cfg : RouteConfig) (req : Req) (r : Res) (q p b : Value)
    (rv : Option Value) (s : ZodObject) (e : ValidationError)
    (hr : r.headersSent = false)
    (hres : resolveInputs app cfg req = Except.ok (q, p, b))
    (hh : cfg.handler q p b = ⟨[], none, HandlerOutcome.ret rv⟩)
    (hsch : responseSchema200 app cfg = some s)
    (hval : validateData app (rv.getD (Value.vobj [])) s
      ("response (" ++ toString 200 ++ ")") cfg.strict = Except.error e) :
    (handleRequest app true cfg req r =
      r.send (responseValidationBody e) 500 "application/json")
    ∧ (handleRequest app false cfg req r =
      r.send (rv.getD (Value.vobj [])) (r.statusCode.getD 200)
        "application/json") := by
  have h0 : (applyRun r ⟨[], none, HandlerOutcome.ret rv⟩).headersSent = false := by
    rw [applyRun_headersSent, hr]
    simp
  have hmsg : strIncludes e.message "response (" = true := by
    rw [validateData_error_message _ _ _ _ _ _ hval]
    decide
  constructor
  · rw [handleRequest_of_ret _ _ _ _ _ _ _ _ _ _ _ hres hh,
      if_neg (by simp [h0]), hsch]
    dsimp only
    rw [validateResponse_dev_error _ _ _ _ _ hval]
    dsimp only
    rw [applyRun_no_effects]
    exact catchBlock_response_error r e hr hmsg
  · rw [handleRequest_of_ret _ _ _ _ _ _ _ _ _ _ _ hres hh,
      if_neg (by simp [h0]), hsch]
    dsimp only
    rw [validateResponse_prod_error _ _ _ _ _ hval]
    dsimp only
    rw [applyRun_no_effects]

/-- C1 counterexample: in a non-development environment, a handler
result that fails the declared `responses[200]` schema is NOT reported
as 500 — the unvalidated data is sent to the client as the success
response (status 200), contradicting "regardless of environment". -/
theorem responseValidationSwallowedInProduction :
    (∃ e, validateData demoApp johnNoEmail userSchema
      ("response (" ++ toString 200 ++ ")") none = Except.error e)
    ∧ (handleRequest demoApp false c1Cfg emptyReq freshRes).sent =
        [(johnNoEmail, 200, "application/json")] :=
  ⟨⟨c1Err, rfl⟩, rfl⟩

theorem responseValidationEnvironmentDependentWitness :
    (handleRequest demoApp true c1Cfg emptyReq freshRes =
      freshRes.send (responseValidationBody c1Err) 500 "application/json")
    ∧ (handleRequest demoApp false c1Cfg emptyReq freshRes =
      freshRes.send johnNoEmail (freshRes.statusCode.getD 200)
        "application/json") :=
  responseValidationEnvironmentDependent demoApp c1Cfg emptyReq freshRes
    (Value.vobj []) (Value.vobj []) (Value.vobj []) (some johnNoEmail)
    userSchema c1Err rfl rfl rfl rfl rfl

theorem singleResponsePerRequestWitness :
    (handleRequest demoApp true c3Cfg emptyReq freshRes).sent.length =
      freshRes.sent.length + 1 :=
  (singleResponsePerRequest demoApp true c3Cfg emptyReq).1 freshRes rfl
    (fun _ _ _ => Nat.zero_le 1)

theorem inputValidation400ResponseWitness :
    handleRequest demoApp true c3Cfg badQueryReq freshRes =
      freshRes.send (validationFailedBody c3Err) 400 "application/json" :=
  inputValidation400Response.2.1 demoApp true c3Cfg badQueryReq freshRes
    userSchema c3Err rfl rfl rfl

theorem strictnessResolutionWitness :
    (∃ e, validateData demoApp (Value.vobj [("name", Value.vstr "J"),
      ("email", Value.vstr "j@x.io"), ("extraField", Value.vstr "x")])
      userSchema "body" (some true) = Except.error e)
    ∧ (∃ out, validateData demoApp (Value.vobj [("name", Value.vstr "J"),
        ("email", Value.vstr "j@x.io"), ("extraField", Value.vstr "x")])
        userSchema "body" (some false) = Except.ok (Value.vobj out)
        ∧ ("extraField", Value.vstr "x") ∈ out) := by
  have hundecl : ∀ f ∈ userSchema.fields, f.name ≠ "extraField" := by
    intro f hf
    simp only [userSchema, List.mem_cons, List.not_mem_nil, or_false] at hf
    rcases hf with h | h <;> subst h <;> simp [strField]
  constructor
  · exact strictnessResolution.2.2.1 demoApp userSchema _ "body" "extraField"
      (Value.vstr "x") rfl (by simp) hundecl
  · have hcheck : ∀ f ∈ userSchema.fields, ∃ v,
        f.check ((([("name", Value.vstr "J"), ("email", Value.vstr "j@x.io"),
          ("extraField", Value.vstr "x")] : List (String × Value))).lookup f.name)
          = Except.ok v := by
      intro f hf
      simp only [userSchema, List.mem_cons, List.not_mem_nil, or_false] at hf
      rcases hf with h | h <;> subst h <;> exact ⟨_, rfl⟩
    rcases strictnessResolution.2.2.2 demoApp userSchema
      [("name", Value.vstr "J"), ("email", Value.vstr "j@x.io"),
        ("extraField", Value.vstr "x")] "body" hcheck with ⟨out, h1, h2⟩
    exact ⟨out, h1, h2 "extraField" (Value.vstr "x") (by simp) hundecl⟩

theorem successPathPipelineWitness :
    handleRequest demoApp true c5Cfg emptyReq freshRes =
      (applyRun freshRes ⟨[], none, HandlerOutcome.ret none⟩).send
        (Value.vobj [])
        ((applyRun freshRes ⟨[], none, HandlerOutcome.ret none⟩).statusCode.getD 200)
        "application/json" :=
  successPathPipeline.2.2.2.1 demoApp true c5Cfg emptyReq freshRes
    (Value.vobj []) (Value.vobj []) (Value.vobj []) none none rfl rfl rfl rfl

theorem handlerException500ResponseWitness :
    handleRequest demoApp true c6Cfg emptyReq freshRes =
      freshRes.send (Value.vobj [("error", Value.vstr "Internal Server Error"),
        ("message", Value.vstr "boom")]) 500 "application/json" :=
  handlerException500Response demoApp true c6Cfg emptyReq freshRes
    (Value.vobj []) (Value.vobj []) (Value.vobj []) (some "boom") rfl rfl rfl

theorem openApiParameterDescriptorsWitness :
    ((queryParameters js8).map (fun p => (p.name, p.schema)) = js8.properties)
    ∧ convertPath "/users/:id" = "/users/{id}" := by
  constructor
  · exact (openApiParameterDescriptors.1 js8).1
  · have hgood : ∀ s ∈ [([] : List Char), "users".toList, ":id".toList],
        goodSeg s := by
      intro s hs
      simp only [List.mem_cons] at hs
      rcases hs with h | h | h | h
      · subst h
        exact ⟨by simp, Or.inl (by simp)⟩
      · subst h
        exact ⟨by decide, Or.inl (by decide)⟩
      · subst h
        exact ⟨by decide, Or.inr ⟨"id".toList, rfl, by decide⟩⟩
      · exact absurd h (List.not_mem_nil _)
    exact openApiParameterDescriptors.2.2.2
      [([] : List Char), "users".toList, ":id".toList] hgood

theorem openApiOmitsSchemalessRoutesWitness :
    generateOpenApiPaths [r9] = [] :=
  (openApiOmitsSchemalessRoutes [r9]).2.2 (by
    intro r hr
    simp only [List.mem_singleton] at hr
    subst hr
    rfl)

theorem validationErrorClassificationWitness :
    handleRequest demoApp true c10Cfg emptyReq freshRes =
      freshRes.send (validationFailedBody ⟨"custom error", []⟩) 400
        "application/json" := by
  have h := validationErrorClassification.2 demoApp true c10Cfg emptyReq
    freshRes (Value.vobj []) (Value.vobj []) (Value.vobj [])
    ⟨"custom error", []⟩ rfl rfl rfl
  rw [h, if_neg (by decide)]
